import Mathlib

/-!
Shallow embedding of `crates/inspector/src/inspector.rs` (revm inspector layer).

Modelling conventions:
* Rust `&mut` arguments become explicit state passing: a function taking
  `&mut A` and `&mut B` is modelled as `A → B → A × B`.
* Rust panics (`unwrap`, `expect`, `panic!` in source text) are modelled by
  returning `Option`, with `none` standing for the panic.
* The generic payload types of the layer (`CallInputs`, `CreateInputs`,
  `EOFCreateInputs`, `CallOutcome`, `CreateOutcome`) are opaque to the
  inspector code (it only clones and forwards them), so they are type
  parameters `C K E CO KO` here.
* `Address`, `U256`, `B256`, `u64`, `Bytes` are carried values only; they are
  embedded as `Nat`.
* The trait `Inspector` becomes a record of transition functions over an
  inspector state type `ISt`; the trait `InspectorCtx` likewise becomes a
  record over a host type; `Host` becomes a record of host-capability
  operations over a context type.
-/

namespace RevmInspector

/-- Machine scalar types of the layer, carried opaquely: embedded as `Nat`. -/
abbrev Address := Nat

/-- 256-bit unsigned value, carried opaquely. -/
abbrev U256 := Nat

/-- 256-bit hash, carried opaquely. -/
abbrev B256 := Nat

/-- Byte string, carried opaquely. -/
abbrev Bytes := Nat

/-- `revm::interpreter::InstructionResult`, reduced to the variants this layer
inspects (`Continue`, `SelfDestruct`) plus representatives of the rest. -/
inductive InstructionResult
  | Continue
  | Stop
  | Return
  | Revert
  | SelfDestruct
  deriving DecidableEq, Repr

/-- `revm::primitives::Log`: emitting address plus opaque payload
(topics/data collapsed into one carried value). -/
structure Log where
  address : Address
  data : Nat
  deriving DecidableEq, Repr

/-- `revm::JournalEntry`, reduced to the two variants the self-destruct
wrapper matches on plus `Other` for every remaining variant (the wrapper's
`_ => {}` arm). Field order follows the source struct variants. -/
inductive JournalEntry
  | AccountDestroyed (address : Address) (target : Address)
      (was_destroyed : Bool) (had_balance : U256)
  | BalanceTransfer (from_ : Address) (to_ : Address) (balance : U256)
  | Other
  deriving DecidableEq, Repr

/-- Projection of `revm::context::JournaledState`: the fields the
`JournalExt` impl reads (`logs`, `journal`). -/
structure JournaledState where
  logs : List Log
  journal : List (List JournalEntry)
  deriving DecidableEq, Repr

/-- `JournalExt::logs` for `JournaledState`: `&self.logs`. -/
def JournaledState.logsView (j : JournaledState) : List Log :=
  j.logs

/-- `JournalExt::last_journal` for `JournaledState`:
`self.journal.last().expect("Journal is never empty")`. The `expect` panic is
modelled as `none`. -/
def JournaledState.last_journal (j : JournaledState) : Option (List JournalEntry) :=
  j.journal.getLast?

/-- Projection of the interpreter (`Interpreter<EthInterpreter>`): the program
counter (`Jumps` trait) and the instruction-result register (`LoopControl`
trait), the only parts this layer touches. `pc` is an `Int` so that
`relative_jump (-1)` is total. -/
structure Interp where
  pc : Int
  result : InstructionResult
  deriving DecidableEq, Repr

/-- `Jumps::relative_jump`: advance the program counter by `offset`. -/
def Interp.relative_jump (i : Interp) (offset : Int) : Interp :=
  { i with pc := i.pc + offset }

/-- `LoopControl::instruction_result`. -/
def Interp.instruction_result (i : Interp) : InstructionResult :=
  i.result

end RevmInspector

namespace RevmInspector

/-- `FrameInput`: tagged frame-entry descriptor. -/
inductive FrameInput (C K E : Type)
  | Call (i : C)
  | Create (i : K)
  | EOFCreate (i : E)
  deriving DecidableEq, Repr

/-- `FrameResult`: tagged frame outcome (`CallOutcome` for calls,
`CreateOutcome` for both creation kinds). -/
inductive FrameResult (CO KO : Type)
  | Call (o : CO)
  | Create (o : KO)
  | EOFCreate (o : KO)
  deriving DecidableEq, Repr

/-- The trait `Inspector<CTX, INTR>` as a record of transition functions.
`ISt` is the inspector's own state (`&mut self`), `CTX` the context state,
`ITP` the interpreter. Each hook returns every `&mut` argument it received. -/
structure InspectorFns (ISt CTX ITP C K E CO KO : Type) where
  initialize_interp : ISt → ITP → CTX → ISt × ITP × CTX
  step : ISt → ITP → CTX → ISt × ITP × CTX
  step_end : ISt → ITP → CTX → ISt × ITP × CTX
  log : ISt → ITP → CTX → Log → ISt × ITP × CTX
  call : ISt → CTX → C → ISt × CTX × C × Option CO
  call_end : ISt → CTX → C → CO → ISt × CTX × CO
  create : ISt → CTX → K → ISt × CTX × K × Option KO
  create_end : ISt → CTX → K → KO → ISt × CTX × KO
  eofcreate : ISt → CTX → E → ISt × CTX × E × Option KO
  eofcreate_end : ISt → CTX → E → KO → ISt × CTX × KO
  selfdestruct : ISt → Address → Address → U256 → ISt

/-- `InspectorContext<INSP, DB, CTX>`: the context adapter. It owns the
inspector state, the inner context, and the frame-correlation stack.
`Vec::push`/`Vec::pop` on the stack are modelled as cons/uncons at the
head of the list. -/
structure InspectorContext (ISt CTX C K E : Type) where
  inspector : ISt
  inner : CTX
  frame_input_stack : List (FrameInput C K E)
  deriving DecidableEq, Repr

variable {ISt CTX C K E CO KO : Type}

/-- `InspectorContext::new`. -/
def InspectorContext.new (inner : CTX) (inspector : ISt) :
    InspectorContext ISt CTX C K E :=
  { inspector := inspector, inner := inner, frame_input_stack := [] }

/-- `InspectorCtx::step` for `InspectorContext`:
`self.inspector.get_inspector().step(interp, &mut self.inner)`. -/
def InspectorContext.step (fns : InspectorFns ISt CTX Interp C K E CO KO)
    (s : InspectorContext ISt CTX C K E) (interp : Interp) :
    InspectorContext ISt CTX C K E × Interp :=
  let r := fns.step s.inspector interp s.inner
  ({ s with inspector := r.1, inner := r.2.2 }, r.2.1)

/-- `InspectorCtx::step_end` for `InspectorContext`. -/
def InspectorContext.step_end (fns : InspectorFns ISt CTX Interp C K E CO KO)
    (s : InspectorContext ISt CTX C K E) (interp : Interp) :
    InspectorContext ISt CTX C K E × Interp :=
  let r := fns.step_end s.inspector interp s.inner
  ({ s with inspector := r.1, inner := r.2.2 }, r.2.1)

/-- `InspectorCtx::initialize_interp` for `InspectorContext`. -/
def InspectorContext.initialize_interp (fns : InspectorFns ISt CTX Interp C K E CO KO)
    (s : InspectorContext ISt CTX C K E) (interp : Interp) :
    InspectorContext ISt CTX C K E × Interp :=
  let r := fns.initialize_interp s.inspector interp s.inner
  ({ s with inspector := r.1, inner := r.2.2 }, r.2.1)

/-- `InspectorCtx::inspector_log` for `InspectorContext`. -/
def InspectorContext.inspector_log (fns : InspectorFns ISt CTX Interp C K E CO KO)
    (s : InspectorContext ISt CTX C K E) (interp : Interp) (lg : Log) :
    InspectorContext ISt CTX C K E × Interp :=
  let r := fns.log s.inspector interp s.inner lg
  ({ s with inspector := r.1, inner := r.2.2 }, r.2.1)

/-- `InspectorCtx::inspector_selfdestruct` for `InspectorContext`. -/
def InspectorContext.inspector_selfdestruct
    (fns : InspectorFns ISt CTX Interp C K E CO KO)
    (s : InspectorContext ISt CTX C K E)
    (contract target : Address) (value : U256) :
    InspectorContext ISt CTX C K E :=
  { s with inspector := fns.selfdestruct s.inspector contract target value }

/-- `InspectorCtx::frame_start` for `InspectorContext`: run the matching
pre-hook on the (mutable) frame input; on `Some` override, return it at once
without pushing; otherwise push a clone of the (possibly mutated) input onto
the frame-correlation stack and return `none`. The returned `FrameInput` is
the mutated one (the Rust code mutates it in place). -/
def InspectorContext.frame_start (fns : InspectorFns ISt CTX Interp C K E CO KO)
    (s : InspectorContext ISt CTX C K E) (frame_input : FrameInput C K E) :
    InspectorContext ISt CTX C K E × FrameInput C K E × Option (FrameResult CO KO) :=
  match frame_input with
  | .Call i =>
    let r := fns.call s.inspector s.inner i
    match r.2.2.2 with
    | some output =>
      ({ s with inspector := r.1, inner := r.2.1 }, .Call r.2.2.1,
        some (.Call output))
    | none =>
      ({ s with
          inspector := r.1
          inner := r.2.1
          frame_input_stack := .Call r.2.2.1 :: s.frame_input_stack },
        .Call r.2.2.1, none)
  | .Create i =>
    let r := fns.create s.inspector s.inner i
    match r.2.2.2 with
    | some output =>
      ({ s with inspector := r.1, inner := r.2.1 }, .Create r.2.2.1,
        some (.Create output))
    | none =>
      ({ s with
          inspector := r.1
          inner := r.2.1
          frame_input_stack := .Create r.2.2.1 :: s.frame_input_stack },
        .Create r.2.2.1, none)
  | .EOFCreate i =>
    let r := fns.eofcreate s.inspector s.inner i
    match r.2.2.2 with
    | some output =>
      ({ s with inspector := r.1, inner := r.2.1 }, .EOFCreate r.2.2.1,
        some (.EOFCreate output))
    | none =>
      ({ s with
          inspector := r.1
          inner := r.2.1
          frame_input_stack := .EOFCreate r.2.2.1 :: s.frame_input_stack },
        .EOFCreate r.2.2.1, none)

/-- `InspectorCtx::frame_end` for `InspectorContext`: pop the
frame-correlation stack (the `expect("Frame pushed")` panic on an empty
stack is `none`), match the popped input's tag against the outcome's tag
(the `panic!` on a mismatch is `none`), and run the paired end hook on the
popped input and the mutable outcome. -/
def InspectorContext.frame_end (fns : InspectorFns ISt CTX Interp C K E CO KO)
    (s : InspectorContext ISt CTX C K E) (frame_output : FrameResult CO KO) :
    Option (InspectorContext ISt CTX C K E × FrameResult CO KO) :=
  match s.frame_input_stack with
  | [] => none
  | frame_input :: rest =>
    match frame_output, frame_input with
    | .Call outcome, .Call i =>
      let r := fns.call_end s.inspector s.inner i outcome
      some ({ inspector := r.1, inner := r.2.1, frame_input_stack := rest },
        .Call r.2.2)
    | .Create outcome, .Create i =>
      let r := fns.create_end s.inspector s.inner i outcome
      some ({ inspector := r.1, inner := r.2.1, frame_input_stack := rest },
        .Create r.2.2)
    | .EOFCreate outcome, .EOFCreate i =>
      let r := fns.eofcreate_end s.inspector s.inner i outcome
      some ({ inspector := r.1, inner := r.2.1, frame_input_stack := rest },
        .EOFCreate r.2.2)
    | _, _ => none

end RevmInspector

namespace RevmInspector

/-- `revm::interpreter::StateLoad<T>`: loaded data plus cold-access flag. -/
structure StateLoad (α : Type) where
  data : α
  is_cold : Bool
  deriving DecidableEq, Repr

/-- `AccountLoad`, carried opaquely by this layer. -/
abbrev AccountLoad := Nat

/-- `SStoreResult`, carried opaquely by this layer. -/
abbrev SStoreResult := Nat

/-- `SelfDestructResult`, carried opaquely by this layer. -/
abbrev SelfDestructResult := Nat

/-- `Eip7702CodeLoad<T>`, carried opaquely by this layer. -/
abbrev Eip7702CodeLoad (α : Type) := α

/-- The trait `Host` as a record of host-capability operations over a context
state `CTX`; each `&mut self` method returns the updated context. -/
structure HostFns (CTX : Type) where
  block_hash : CTX → Nat → CTX × Option B256
  load_account_delegated : CTX → Address → CTX × Option AccountLoad
  balance : CTX → Address → CTX × Option (StateLoad U256)
  code : CTX → Address → CTX × Option (Eip7702CodeLoad Bytes)
  code_hash : CTX → Address → CTX × Option (Eip7702CodeLoad B256)
  sload : CTX → Address → U256 → CTX × Option (StateLoad U256)
  sstore : CTX → Address → U256 → U256 → CTX × Option (StateLoad SStoreResult)
  tload : CTX → Address → U256 → CTX × U256
  tstore : CTX → Address → U256 → U256 → CTX
  log : CTX → Log → CTX
  selfdestruct : CTX → Address → Address → CTX × Option (StateLoad SelfDestructResult)

variable {ISt CTX C K E CO KO : Type}

/-- `impl Host for InspectorContext`: every operation is forwarded to
`self.inner`, nothing else. Given the inner context's `Host` impl `H`, this
is the adapter's `Host` impl. -/
def InspectorContext.hostFns (H : HostFns CTX) :
    HostFns (InspectorContext ISt CTX C K E) where
  block_hash s n :=
    let r := H.block_hash s.inner n; ({ s with inner := r.1 }, r.2)
  load_account_delegated s a :=
    let r := H.load_account_delegated s.inner a; ({ s with inner := r.1 }, r.2)
  balance s a :=
    let r := H.balance s.inner a; ({ s with inner := r.1 }, r.2)
  code s a :=
    let r := H.code s.inner a; ({ s with inner := r.1 }, r.2)
  code_hash s a :=
    let r := H.code_hash s.inner a; ({ s with inner := r.1 }, r.2)
  sload s a i :=
    let r := H.sload s.inner a i; ({ s with inner := r.1 }, r.2)
  sstore s a i v :=
    let r := H.sstore s.inner a i v; ({ s with inner := r.1 }, r.2)
  tload s a i :=
    let r := H.tload s.inner a i; ({ s with inner := r.1 }, r.2)
  tstore s a i v :=
    { s with inner := H.tstore s.inner a i v }
  log s lg :=
    { s with inner := H.log s.inner lg }
  selfdestruct s a t :=
    let r := H.selfdestruct s.inner a t; ({ s with inner := r.1 }, r.2)

/-- `impl JournalExtGetter for InspectorContext`: forwarded to the inner
context's journal view (`jext` is the inner context's `JournalExtGetter`). -/
def InspectorContext.journal_ext (jext : CTX → JournaledState)
    (s : InspectorContext ISt CTX C K E) : JournaledState :=
  jext s.inner

end RevmInspector

namespace RevmInspector

/-- The trait `InspectorCtx` as used by the instrumented instruction set: a
record of the interpreter-facing methods over an abstract host `HOST`. (The
frame-facing methods `frame_start`/`frame_end` are modelled directly on the
concrete adapter `InspectorContext` above.) -/
structure InspectorCtxFns (HOST : Type) where
  step : HOST → Interp → HOST × Interp
  step_end : HOST → Interp → HOST × Interp
  initialize_interp : HOST → Interp → HOST × Interp
  inspector_log : HOST → Interp → Log → HOST × Interp
  inspector_selfdestruct : HOST → Address → Address → U256 → HOST

variable {ISt CTX C K E CO KO HOST : Type}

/-- The `InspectorCtx` impl of `InspectorContext`, packaged as the record the
instruction wrappers are generic over. -/
def InspectorContext.ctxFns (fns : InspectorFns ISt CTX Interp C K E CO KO) :
    InspectorCtxFns (InspectorContext ISt CTX C K E) where
  step s interp := InspectorContext.step fns s interp
  step_end s interp := InspectorContext.step_end fns s interp
  initialize_interp s interp := InspectorContext.initialize_interp fns s interp
  inspector_log s interp lg := InspectorContext.inspector_log fns s interp lg
  inspector_selfdestruct s c t v :=
    InspectorContext.inspector_selfdestruct fns s c t v

/-- An instruction body `fn(&mut Interpreter, &mut HOST)`; `none` models a
panic inside the body. -/
abbrev Instr (HOST : Type) := Interp → HOST → Option (Interp × HOST)

/-- `InspectorInstruction`: a table entry holding the wrapped instruction. -/
structure InspectorInstruction (HOST : Type) where
  instruction : Instr HOST

/-- `CustomInstruction::from_base for InspectorInstruction`. -/
def InspectorInstruction.from_base (instruction : Instr HOST) :
    InspectorInstruction HOST :=
  { instruction := instruction }

/-- `CustomInstruction::exec for InspectorInstruction`: rewind the program
counter by one, call `step`; if the instruction result is no longer
`Continue`, return at once; otherwise restore the program counter, run the
stored instruction, and call `step_end`. -/
def InspectorInstruction.exec (ictx : InspectorCtxFns HOST)
    (self : InspectorInstruction HOST) (interpreter : Interp) (host : HOST) :
    Option (Interp × HOST) :=
  let interpreter := interpreter.relative_jump (-1)
  let r := ictx.step host interpreter
  if r.2.instruction_result ≠ InstructionResult.Continue then
    some (r.2, r.1)
  else
    let interpreter := r.2.relative_jump 1
    match self.instruction interpreter r.1 with
    | none => none
    | some (interpreter, host) =>
      let r2 := ictx.step_end host interpreter
      some (r2.2, r2.1)

/-- The nested function `inspector_log` of
`InspectorInstructionProvider::new`: run the base log handler `prev`; only if
the instruction result is still `Continue`, read the last entry of the
journal view's log list (`unwrap` on an empty list is the panic `none`) and
deliver it to the `log` hook. -/
def inspector_log (ictx : InspectorCtxFns HOST) (jext : HOST → JournaledState)
    (prev : Instr HOST) (interpreter : Interp) (context : HOST) :
    Option (Interp × HOST) :=
  match prev interpreter context with
  | none => none
  | some (interpreter, context) =>
    if interpreter.instruction_result = InstructionResult.Continue then
      match (jext context).logsView.getLast? with
      | none => none
      | some last_log =>
        let r := ictx.inspector_log context interpreter last_log
        some (r.2, r.1)
    else some (interpreter, context)

/-- The `SELFDESTRUCT` table entry of `InspectorInstructionProvider::new`:
run the base self-destruct handler; if the instruction result is
`SelfDestruct`, match the last record of the journal's current change-log
segment (`last_journal`'s `expect` panic is `none`) and deliver the resolved
`(contract, target, value)` triple to the `selfdestruct` hook; any other
record kind fires nothing. -/
def selfdestruct_entry (ictx : InspectorCtxFns HOST)
    (jext : HOST → JournaledState) (base : Instr HOST) : Instr HOST :=
  fun interp context =>
    match base interp context with
    | none => none
    | some (interp, context) =>
      if interp.instruction_result = InstructionResult.SelfDestruct then
        match (jext context).last_journal with
        | none => none
        | some seg =>
          match seg.getLast? with
          | some (.AccountDestroyed address target _ had_balance) =>
            some (interp,
              ictx.inspector_selfdestruct context address target had_balance)
          | some (.BalanceTransfer from_ to_ balance) =>
            some (interp, ictx.inspector_selfdestruct context from_ to_ balance)
          | _ => some (interp, context)
      else some (interp, context)

/-- Opcode byte of `LOG0`. -/
def LOG0 : Nat := 0xA0

/-- Opcode byte of `LOG1`. -/
def LOG1 : Nat := 0xA1

/-- Opcode byte of `LOG2`. -/
def LOG2 : Nat := 0xA2

/-- Opcode byte of `LOG3`. -/
def LOG3 : Nat := 0xA3

/-- Opcode byte of `LOG4`. -/
def LOG4 : Nat := 0xA4

/-- Opcode byte of `SELFDESTRUCT`. -/
def SELFDESTRUCT : Nat := 0xFF

/-- `InspectorInstructionProvider`: the instrumented dispatch table
(`Rc<[InspectorInstruction; 256]>`; the `Rc` is modelled by value, see
`InspectorInstructionProvider.clone`). -/
structure InspectorInstructionProvider (HOST : Type) where
  instruction_table : List (InspectorInstruction HOST)

/-- `InstructionProvider::new for InspectorInstructionProvider`: wrap every
entry of the base table (`table::make_instruction_table`, external, passed as
`main_table`), then overwrite the five log opcodes with the log wrapper
around the base log handlers (`log::<N>`, external, passed as `log_n`) and
the self-destruct opcode with the self-destruct wrapper around the base
handler (external, passed as `selfdestruct_base`). -/
def InspectorInstructionProvider.new (ictx : InspectorCtxFns HOST)
    (jext : HOST → JournaledState) (main_table : Nat → Instr HOST)
    (log_n : Nat → Instr HOST) (selfdestruct_base : Instr HOST) :
    InspectorInstructionProvider HOST :=
  let table := (List.range 256).map
    (fun i => InspectorInstruction.from_base (main_table i))
  let table := table.set LOG0
    { instruction := fun interp context =>
        inspector_log ictx jext (log_n 0) interp context }
  let table := table.set LOG1
    { instruction := fun interp context =>
        inspector_log ictx jext (log_n 1) interp context }
  let table := table.set LOG2
    { instruction := fun interp context =>
        inspector_log ictx jext (log_n 2) interp context }
  let table := table.set LOG3
    { instruction := fun interp context =>
        inspector_log ictx jext (log_n 3) interp context }
  let table := table.set LOG4
    { instruction := fun interp context =>
        inspector_log ictx jext (log_n 4) interp context }
  let table := table.set SELFDESTRUCT
    { instruction := selfdestruct_entry ictx jext selfdestruct_base }
  { instruction_table := table }

/-- `impl Clone for InspectorInstructionProvider`: the table handle is
shared (`Rc::clone`), never rebuilt; modelled by value as reuse of the same
table. -/
def InspectorInstructionProvider.clone (p : InspectorInstructionProvider HOST) :
    InspectorInstructionProvider HOST :=
  { instruction_table := p.instruction_table }

/-- `InstructionProvider::table`. -/
def InspectorInstructionProvider.tableView
    (p : InspectorInstructionProvider HOST) :
    List (InspectorInstruction HOST) :=
  p.instruction_table

end RevmInspector

namespace RevmInspector

/-- `FrameOrResultGen`: an engine answer, either a spawned active frame or an
immediately resolved result. -/
inductive FrameOrResultGen (F R : Type)
  | Frame (f : F)
  | Result (r : R)

/-- Projection of the engine's `EthFrame`: the interpreter (the only part
this layer touches) plus an opaque remainder. -/
structure EthFrame (ρ : Type) where
  interpreter : Interp
  rest : ρ

/-- `InspectorEthFrame`: the wrapper frame holding the engine frame. -/
structure InspectorEthFrame (ρ : Type) where
  eth_frame : EthFrame ρ

/-- The underlying engine's frame machinery (`EthFrame::init_first`,
`EthFrame::init`, `EthFrame::return_result`), external to this layer and
passed as a record of functions. The engine mutates the adapter only through
the forwarding trait impls, i.e. it acts on the inner context. -/
structure EthFrameEngine (CTX C K E CO KO ρ Err : Type) where
  init_first : CTX → FrameInput C K E →
    Except Err (CTX × FrameOrResultGen (EthFrame ρ) (FrameResult CO KO))
  init : EthFrame ρ → CTX → FrameInput C K E →
    Except Err (CTX × FrameOrResultGen (EthFrame ρ) (FrameResult CO KO))
  return_result : EthFrame ρ → CTX → FrameResult CO KO →
    Except Err (EthFrame ρ × CTX)

variable {ISt CTX C K E CO KO ρ Err : Type}

/-- `Frame::init_first for InspectorEthFrame`: ask `frame_start` for a
pre-hook override; on override return it as the result. Otherwise run the
engine's `init_first`; on an immediate result invoke `frame_end` on it
(whose panics are `none`); on a spawned frame invoke `initialize_interp` on
its interpreter. -/
def InspectorEthFrame.init_first
    (fns : InspectorFns ISt CTX Interp C K E CO KO)
    (eng : EthFrameEngine CTX C K E CO KO ρ Err)
    (s : InspectorContext ISt CTX C K E) (frame_input : FrameInput C K E) :
    Option (Except Err (InspectorContext ISt CTX C K E ×
      FrameOrResultGen (InspectorEthFrame ρ) (FrameResult CO KO))) :=
  match InspectorContext.frame_start fns s frame_input with
  | (s, _, some output) => some (.ok (s, .Result output))
  | (s, frame_input, none) =>
    match eng.init_first s.inner frame_input with
    | .error e => some (.error e)
    | .ok (inner, .Result res) =>
      let s := { s with inner := inner }
      match InspectorContext.frame_end fns s res with
      | none => none
      | some (s, res) => some (.ok (s, .Result res))
    | .ok (inner, .Frame f) =>
      let s := { s with inner := inner }
      let r := InspectorContext.initialize_interp fns s f.interpreter
      some (.ok (r.1, .Frame { eth_frame := { f with interpreter := r.2 } }))

/-- `Frame::init for InspectorEthFrame` (nested frames): ask `frame_start`
for a pre-hook override; otherwise run the engine's `init`. Only a spawned
frame gets `initialize_interp`; an immediate result is returned as-is. -/
def InspectorEthFrame.init (self : InspectorEthFrame ρ)
    (fns : InspectorFns ISt CTX Interp C K E CO KO)
    (eng : EthFrameEngine CTX C K E CO KO ρ Err)
    (s : InspectorContext ISt CTX C K E) (frame_input : FrameInput C K E) :
    Except Err (InspectorContext ISt CTX C K E ×
      FrameOrResultGen (InspectorEthFrame ρ) (FrameResult CO KO)) :=
  match InspectorContext.frame_start fns s frame_input with
  | (s, _, some output) => .ok (s, .Result output)
  | (s, frame_input, none) =>
    match eng.init self.eth_frame s.inner frame_input with
    | .error e => .error e
    | .ok (inner, .Result res) => .ok ({ s with inner := inner }, .Result res)
    | .ok (inner, .Frame f) =>
      let s := { s with inner := inner }
      let r := InspectorContext.initialize_interp fns s f.interpreter
      .ok (r.1, .Frame { eth_frame := { f with interpreter := r.2 } })

/-- `Frame::return_result for InspectorEthFrame`: invoke `frame_end` on the
result (panics are `none`), then delegate to the engine. -/
def InspectorEthFrame.return_result (self : InspectorEthFrame ρ)
    (fns : InspectorFns ISt CTX Interp C K E CO KO)
    (eng : EthFrameEngine CTX C K E CO KO ρ Err)
    (s : InspectorContext ISt CTX C K E) (result : FrameResult CO KO) :
    Option (Except Err (InspectorEthFrame ρ × InspectorContext ISt CTX C K E)) :=
  match InspectorContext.frame_end fns s result with
  | none => none
  | some (s, result) =>
    match eng.return_result self.eth_frame s.inner result with
    | .error e => some (.error e)
    | .ok (f, inner) => some (.ok ({ eth_frame := f }, { s with inner := inner }))

end RevmInspector

namespace RevmInspector

/-- Variant tag of a frame-entry descriptor (Call/Create/EOFCreate). -/
def FrameInput.tag {C K E : Type} : FrameInput C K E → Nat
  | .Call _ => 0
  | .Create _ => 1
  | .EOFCreate _ => 2

/-- Variant tag of a frame outcome (Call/Create/EOFCreate). -/
def FrameResult.tag {CO KO : Type} : FrameResult CO KO → Nat
  | .Call _ => 0
  | .Create _ => 1
  | .EOFCreate _ => 2

/-- Hook events, used by the concrete tracing inspector below. -/
inductive Ev
  | init_itp
  | step
  | step_end
  | lg
  | call
  | call_end
  | create
  | create_end
  | eofc
  | eofc_end
  | sd
  deriving DecidableEq, Repr

/-- A concrete tracing inspector over `ISt := List Ev` (every hook appends
its event), inner context `JournaledState`, `Nat` payloads; pre-hooks add 1,
2, 3 to their input and override nothing; end hooks add 10, 20, 30 to the
outcome. -/
def demoFns : InspectorFns (List Ev) JournaledState Interp Nat Nat Nat Nat Nat where
  initialize_interp ist itp ctx := (ist ++ [Ev.init_itp], itp, ctx)
  step ist itp ctx := (ist ++ [Ev.step], itp, ctx)
  step_end ist itp ctx := (ist ++ [Ev.step_end], itp, ctx)
  log ist itp ctx _lg := (ist ++ [Ev.lg], itp, ctx)
  call ist ctx i := (ist ++ [Ev.call], ctx, i + 1, none)
  call_end ist ctx _i o := (ist ++ [Ev.call_end], ctx, o + 10)
  create ist ctx i := (ist ++ [Ev.create], ctx, i + 2, none)
  create_end ist ctx _i o := (ist ++ [Ev.create_end], ctx, o + 20)
  eofcreate ist ctx i := (ist ++ [Ev.eofc], ctx, i + 3, none)
  eofcreate_end ist ctx _i o := (ist ++ [Ev.eofc_end], ctx, o + 30)
  selfdestruct ist _c _t _v := ist ++ [Ev.sd]

/-- A concrete tracing inspector identical to `demoFns` except that every
pre-hook overrides: it returns `some 42`. -/
def demoFnsOv : InspectorFns (List Ev) JournaledState Interp Nat Nat Nat Nat Nat :=
  { demoFns with
    call := fun ist ctx i => (ist ++ [Ev.call], ctx, i + 1, some 42)
    create := fun ist ctx i => (ist ++ [Ev.create], ctx, i + 2, some 42)
    eofcreate := fun ist ctx i => (ist ++ [Ev.eofc], ctx, i + 3, some 42) }

/-- A concrete engine whose frame creation always resolves immediately to
the result `Call 5` without spawning an active frame. -/
def demoEng : EthFrameEngine JournaledState Nat Nat Nat Nat Nat Nat Nat where
  init_first ctx _fi := .ok (ctx, .Result (.Call 5))
  init _f ctx _fi := .ok (ctx, .Result (.Call 5))
  return_result f ctx _r := .ok (f, ctx)

/-- A concrete engine whose frame creation always spawns an active frame
with a fresh interpreter at pc 3. -/
def demoEngSpawn : EthFrameEngine JournaledState Nat Nat Nat Nat Nat Nat Nat where
  init_first ctx _fi :=
    .ok (ctx, .Frame { interpreter := { pc := 3, result := .Continue }, rest := 9 })
  init _f ctx _fi :=
    .ok (ctx, .Frame { interpreter := { pc := 3, result := .Continue }, rest := 9 })
  return_result f ctx _r := .ok (f, ctx)

/-- An empty concrete adapter state: no trace, empty journal, empty
frame-correlation stack. -/
def demoS : InspectorContext (List Ev) JournaledState Nat Nat Nat :=
  { inspector := [], inner := { logs := [], journal := [] }, frame_input_stack := [] }

/-- A concrete wrapper frame around an engine frame. -/
def demoFrame : InspectorEthFrame Nat :=
  { eth_frame := { interpreter := { pc := 0, result := .Continue }, rest := 0 } }

/-- A concrete base instruction that changes nothing. -/
def demoNop : Instr (InspectorContext (List Ev) JournaledState Nat Nat Nat) :=
  fun i h => some (i, h)

/-- A concrete base table whose every entry is `demoNop`. -/
def demoBaseTable : Nat → Instr (InspectorContext (List Ev) JournaledState Nat Nat Nat) :=
  fun _ => demoNop

/-- A concrete base log handler: appends the log `(1, 2)` to the inner
journal's log list and leaves the result at `Continue`. -/
def demoLogBase : Instr (InspectorContext (List Ev) JournaledState Nat Nat Nat) :=
  fun i h => some (i, { h with inner :=
    { h.inner with logs := h.inner.logs ++ [{ address := 1, data := 2 }] } })

/-- A concrete base self-destruct handler: records an account-destroyed
entry `(3, 4, 9)` in a fresh journal segment and sets the result to
`SelfDestruct`. -/
def demoSdBase : Instr (InspectorContext (List Ev) JournaledState Nat Nat Nat) :=
  fun i h => some ({ i with result := .SelfDestruct }, { h with inner :=
    { h.inner with journal := [[JournalEntry.AccountDestroyed 3 4 true 9]] } })

end RevmInspector

namespace RevmInspector

/-- C1: for every opcode run through `InspectorInstruction.exec`, the program
counter is first rewound by one (`relative_jump (-1)`), then `step` runs on
that rewound interpreter; if `step` leaves the instruction result at
`Continue`, the counter is restored (`relative_jump 1`), the stored base
handler runs, and `step_end` runs, in that order; if `step` sets any other
result, `exec` returns `step`'s output unchanged (counter still rewound) and
neither the base handler nor `step_end` runs — the return value does not
depend on either. -/
theorem exec_step_protocol {HOST : Type} (ictx : InspectorCtxFns HOST)
    (self : InspectorInstruction HOST) (interpreter : Interp) (host : HOST)
    (h1 : HOST) (i1 : Interp)
    (hstep : ictx.step host (interpreter.relative_jump (-1)) = (h1, i1)) :
    (i1.instruction_result ≠ InstructionResult.Continue →
      self.exec ictx interpreter host = some (i1, h1)
      ∧ ∀ (self2 : InspectorInstruction HOST)
          (se2 : HOST → Interp → HOST × Interp),
          InspectorInstruction.exec { ictx with step_end := se2 } self2
            interpreter host = some (i1, h1))
    ∧ (i1.instruction_result = InstructionResult.Continue →
      self.exec ictx interpreter host =
        match self.instruction (i1.relative_jump 1) h1 with
        | none => none
        | some p => some ((ictx.step_end p.2 p.1).2, (ictx.step_end p.2 p.1).1)) := by
  constructor
  · intro hne
    refine ⟨?_, fun self2 se2 => ?_⟩
    · simp [InspectorInstruction.exec, hstep, hne]
    · simp [InspectorInstruction.exec, hstep, hne]
  · intro heq
    simp only [InspectorInstruction.exec, hstep, heq]
    cases self.instruction (i1.relative_jump 1) h1 with
    | none => simp
    | some p =>
      cases p
      simp

/-- C5: every host-capability operation of the adapter forwards to the inner
context and does nothing else: the result equals the inner context's result
for the same arguments, the inner context evolves exactly as the inner
operation evolves it, and the inspector state and the frame-correlation
stack are untouched — so the results do not depend on the attached observer
at all. -/
theorem host_transparency {ISt CTX C K E : Type} (H : HostFns CTX)
    (insp : ISt) (inner : CTX) (stack : List (FrameInput C K E))
    (n : Nat) (a t : Address) (i v : U256) (lg : Log) :
    ((InspectorContext.hostFns H).block_hash
        (⟨insp, inner, stack⟩ : InspectorContext ISt CTX C K E) n
      = (⟨insp, (H.block_hash inner n).1, stack⟩, (H.block_hash inner n).2))
    ∧ ((InspectorContext.hostFns H).load_account_delegated
        (⟨insp, inner, stack⟩ : InspectorContext ISt CTX C K E) a
      = (⟨insp, (H.load_account_delegated inner a).1, stack⟩,
          (H.load_account_delegated inner a).2))
    ∧ ((InspectorContext.hostFns H).balance
        (⟨insp, inner, stack⟩ : InspectorContext ISt CTX C K E) a
      = (⟨insp, (H.balance inner a).1, stack⟩, (H.balance inner a).2))
    ∧ ((InspectorContext.hostFns H).code
        (⟨insp, inner, stack⟩ : InspectorContext ISt CTX C K E) a
      = (⟨insp, (H.code inner a).1, stack⟩, (H.code inner a).2))
    ∧ ((InspectorContext.hostFns H).code_hash
        (⟨insp, inner, stack⟩ : InspectorContext ISt CTX C K E) a
      = (⟨insp, (H.code_hash inner a).1, stack⟩, (H.code_hash inner a).2))
    ∧ ((InspectorContext.hostFns H).sload
        (⟨insp, inner, stack⟩ : InspectorContext ISt CTX C K E) a i
      = (⟨insp, (H.sload inner a i).1, stack⟩, (H.sload inner a i).2))
    ∧ ((InspectorContext.hostFns H).sstore
        (⟨insp, inner, stack⟩ : InspectorContext ISt CTX C K E) a i v
      = (⟨insp, (H.sstore inner a i v).1, stack⟩, (H.sstore inner a i v).2))
    ∧ ((InspectorContext.hostFns H).tload
        (⟨insp, inner, stack⟩ : InspectorContext ISt CTX C K E) a i
      = (⟨insp, (H.tload inner a i).1, stack⟩, (H.tload inner a i).2))
    ∧ ((InspectorContext.hostFns H).tstore
        (⟨insp, inner, stack⟩ : InspectorContext ISt CTX C K E) a i v
      = ⟨insp, H.tstore inner a i v, stack⟩)
    ∧ ((InspectorContext.hostFns H).log
        (⟨insp, inner, stack⟩ : InspectorContext ISt CTX C K E) lg
      = ⟨insp, H.log inner lg, stack⟩)
    ∧ ((InspectorContext.hostFns H).selfdestruct
        (⟨insp, inner, stack⟩ : InspectorContext ISt CTX C K E) a t
      = (⟨insp, (H.selfdestruct inner a t).1, stack⟩,
          (H.selfdestruct inner a t).2)) := by
  refine ⟨rfl, rfl, rfl, rfl, rfl, rfl, rfl, rfl, rfl, rfl, rfl⟩

/-- C3: the log wrapper runs the base log handler first; exactly when the
instruction result afterwards is `Continue`, the `log` hook runs once on the
last entry of the journal view's log list (the value a direct journal read
would give at that point); when the result is not `Continue` the wrapper
returns the base handler's output unchanged and the hook does not run — the
output does not depend on the hook at all. -/
theorem inspector_log_protocol {HOST : Type} (ictx : InspectorCtxFns HOST)
    (jext : HOST → JournaledState) (prev : Instr HOST)
    (interpreter : Interp) (context : HOST) (i1 : Interp) (c1 : HOST)
    (hprev : prev interpreter context = some (i1, c1)) :
    (∀ lg, i1.instruction_result = InstructionResult.Continue →
      (jext c1).logsView.getLast? = some lg →
      inspector_log ictx jext prev interpreter context =
        some ((ictx.inspector_log c1 i1 lg).2, (ictx.inspector_log c1 i1 lg).1))
    ∧ (i1.instruction_result ≠ InstructionResult.Continue →
      inspector_log ictx jext prev interpreter context = some (i1, c1)
      ∧ ∀ il2, inspector_log { ictx with inspector_log := il2 } jext prev
          interpreter context = some (i1, c1)) := by
  constructor
  · intro lg hc hlast
    simp [inspector_log, hprev, hc, hlast]
  · intro hne
    refine ⟨?_, fun il2 => ?_⟩
    · simp [inspector_log, hprev, hne]
    · simp [inspector_log, hprev, hne]

/-- C4: the self-destruct table entry runs the base handler first; when the
instruction result afterwards is `SelfDestruct`, the `selfdestruct` hook
runs once with the `(contract, target, value)` triple of the most recent
record of the journal's current change-log segment, for both record kinds
(`AccountDestroyed` and `BalanceTransfer`); when the result is not
`SelfDestruct` the entry returns the base handler's output unchanged and the
hook does not run — the output does not depend on the hook at all. -/
theorem selfdestruct_hook_protocol {HOST : Type} (ictx : InspectorCtxFns HOST)
    (jext : HOST → JournaledState) (base : Instr HOST)
    (interp : Interp) (context : HOST) (i1 : Interp) (c1 : HOST)
    (hbase : base interp context = some (i1, c1)) :
    (∀ seg a t wd hb, i1.instruction_result = InstructionResult.SelfDestruct →
      (jext c1).last_journal = some seg →
      seg.getLast? = some (.AccountDestroyed a t wd hb) →
      selfdestruct_entry ictx jext base interp context =
        some (i1, ictx.inspector_selfdestruct c1 a t hb))
    ∧ (∀ seg f t b, i1.instruction_result = InstructionResult.SelfDestruct →
      (jext c1).last_journal = some seg →
      seg.getLast? = some (.BalanceTransfer f t b) →
      selfdestruct_entry ictx jext base interp context =
        some (i1, ictx.inspector_selfdestruct c1 f t b))
    ∧ (i1.instruction_result ≠ InstructionResult.SelfDestruct →
      selfdestruct_entry ictx jext base interp context = some (i1, c1)
      ∧ ∀ isd2, selfdestruct_entry { ictx with inspector_selfdestruct := isd2 }
          jext base interp context = some (i1, c1)) := by
  refine ⟨?_, ?_, ?_⟩
  · intro seg a t wd hb hc hseg hlast
    simp [selfdestruct_entry, hbase, hc, hseg, hlast]
  · intro seg f t b hc hseg hlast
    simp [selfdestruct_entry, hbase, hc, hseg, hlast]
  · intro hne
    refine ⟨?_, fun isd2 => ?_⟩
    · simp [selfdestruct_entry, hbase, hne]
    · simp [selfdestruct_entry, hbase, hne]

/-- C9: under the engine invariants — the log list is non-empty when a log
instruction has just completed with `Continue`, and the journal's segment
list is non-empty when a self-destruct instruction has just completed with
`SelfDestruct` — the panicking journal reads of the two wrappers (the
`unwrap` of the last log and the `expect` inside `last_journal`) are
unreachable: both wrappers return `some`. -/
theorem journal_reads_never_panic {HOST : Type} (ictx : InspectorCtxFns HOST)
    (jext : HOST → JournaledState) (prev base : Instr HOST)
    (interp : Interp) (context : HOST)
    (i1 : Interp) (c1 : HOST) (i2 : Interp) (c2 : HOST)
    (hprev : prev interp context = some (i1, c1))
    (hbase : base interp context = some (i2, c2))
    (hlogs : i1.instruction_result = InstructionResult.Continue →
      (jext c1).logsView ≠ [])
    (hseg : i2.instruction_result = InstructionResult.SelfDestruct →
      (jext c2).journal ≠ []) :
    (inspector_log ictx jext prev interp context).isSome = true
    ∧ (selfdestruct_entry ictx jext base interp context).isSome = true := by
  constructor
  · simp only [inspector_log, hprev]
    by_cases hc : i1.instruction_result = InstructionResult.Continue
    · have hne := hlogs hc
      cases hlast : (jext c1).logsView.getLast? with
      | none => exact absurd (List.getLast?_eq_none_iff.mp hlast) hne
      | some lg => simp [hc, hlast]
    · simp [hc]
  · simp only [selfdestruct_entry, hbase]
    by_cases hc : i2.instruction_result = InstructionResult.SelfDestruct
    · have hne := hseg hc
      cases hlast : (jext c2).last_journal with
      | none =>
        exact absurd (List.getLast?_eq_none_iff.mp hlast) hne
      | some seg =>
        cases hl : seg.getLast? with
        | none => simp [hc, hlast, hl]
        | some entry => cases entry <;> simp [hc, hlast, hl]
    · simp [hc]

end RevmInspector

namespace RevmInspector

variable {ISt CTX C K E CO KO : Type}

/-- C7: `frame_end` fails fatally (modelled `none`, a panic in the source)
exactly when the frame-correlation stack is empty or the popped input's
variant tag differs from the outcome's; otherwise it pops exactly one entry
and runs the end hook of the outcome's kind on the popped input and the
outcome. -/
theorem frame_end_contract (fns : InspectorFns ISt CTX Interp C K E CO KO)
    (s : InspectorContext ISt CTX C K E) (fr : FrameResult CO KO) :
    (InspectorContext.frame_end fns s fr = none ↔
      s.frame_input_stack = [] ∨
      ∃ fi rest, s.frame_input_stack = fi :: rest ∧ fi.tag ≠ fr.tag)
    ∧ (∀ i rest o, s.frame_input_stack = FrameInput.Call i :: rest →
        fr = FrameResult.Call o →
        InspectorContext.frame_end fns s fr =
          some ({ inspector := (fns.call_end s.inspector s.inner i o).1
                  inner := (fns.call_end s.inspector s.inner i o).2.1
                  frame_input_stack := rest },
            .Call (fns.call_end s.inspector s.inner i o).2.2))
    ∧ (∀ i rest o, s.frame_input_stack = FrameInput.Create i :: rest →
        fr = FrameResult.Create o →
        InspectorContext.frame_end fns s fr =
          some ({ inspector := (fns.create_end s.inspector s.inner i o).1
                  inner := (fns.create_end s.inspector s.inner i o).2.1
                  frame_input_stack := rest },
            .Create (fns.create_end s.inspector s.inner i o).2.2))
    ∧ (∀ i rest o, s.frame_input_stack = FrameInput.EOFCreate i :: rest →
        fr = FrameResult.EOFCreate o →
        InspectorContext.frame_end fns s fr =
          some ({ inspector := (fns.eofcreate_end s.inspector s.inner i o).1
                  inner := (fns.eofcreate_end s.inspector s.inner i o).2.1
                  frame_input_stack := rest },
            .EOFCreate (fns.eofcreate_end s.inspector s.inner i o).2.2)) := by
  refine ⟨?_, ?_, ?_, ?_⟩
  · cases hs : s.frame_input_stack with
    | nil => simp [InspectorContext.frame_end, hs]
    | cons fi rest =>
      cases fr <;> cases fi <;>
        simp [InspectorContext.frame_end, hs, FrameInput.tag, FrameResult.tag]
  · intro i rest o hs hfr
    subst hfr
    simp [InspectorContext.frame_end, hs]
  · intro i rest o hs hfr
    subst hfr
    simp [InspectorContext.frame_end, hs]
  · intro i rest o hs hfr
    subst hfr
    simp [InspectorContext.frame_end, hs]

/-- C2: if the pre-hook of the frame input's kind returns `some` outcome,
then both `init_first` and `init` return exactly that outcome wrapped in the
matching `FrameResult` variant; the frame-correlation stack is unchanged,
and the right-hand sides mention neither the engine `eng` nor
`initialize_interp` — the engine's frame machinery and `initialize_interp`
are never invoked for that frame. -/
theorem frame_override {ISt CTX C K E CO KO ρ Err : Type}
    (fns : InspectorFns ISt CTX Interp C K E CO KO)
    (eng : EthFrameEngine CTX C K E CO KO ρ Err)
    (self : InspectorEthFrame ρ)
    (s : InspectorContext ISt CTX C K E) :
    (∀ c ist ctx c2 o,
      fns.call s.inspector s.inner c = (ist, ctx, c2, some o) →
      InspectorEthFrame.init_first fns eng s (.Call c) =
        some (.ok ({ inspector := ist
                     inner := ctx
                     frame_input_stack := s.frame_input_stack },
          .Result (.Call o)))
      ∧ InspectorEthFrame.init self fns eng s (.Call c) =
          .ok ({ inspector := ist
                 inner := ctx
                 frame_input_stack := s.frame_input_stack },
            .Result (.Call o)))
    ∧ (∀ k ist ctx k2 o,
      fns.create s.inspector s.inner k = (ist, ctx, k2, some o) →
      InspectorEthFrame.init_first fns eng s (.Create k) =
        some (.ok ({ inspector := ist
                     inner := ctx
                     frame_input_stack := s.frame_input_stack },
          .Result (.Create o)))
      ∧ InspectorEthFrame.init self fns eng s (.Create k) =
          .ok ({ inspector := ist
                 inner := ctx
                 frame_input_stack := s.frame_input_stack },
            .Result (.Create o)))
    ∧ (∀ e ist ctx e2 o,
      fns.eofcreate s.inspector s.inner e = (ist, ctx, e2, some o) →
      InspectorEthFrame.init_first fns eng s (.EOFCreate e) =
        some (.ok ({ inspector := ist
                     inner := ctx
                     frame_input_stack := s.frame_input_stack },
          .Result (.EOFCreate o)))
      ∧ InspectorEthFrame.init self fns eng s (.EOFCreate e) =
          .ok ({ inspector := ist
                 inner := ctx
                 frame_input_stack := s.frame_input_stack },
            .Result (.EOFCreate o))) := by
  refine ⟨?_, ?_, ?_⟩
  · intro c ist ctx c2 o hcall
    constructor
    · simp [InspectorEthFrame.init_first, InspectorContext.frame_start, hcall]
    · simp [InspectorEthFrame.init, InspectorContext.frame_start, hcall]
  · intro k ist ctx k2 o hcreate
    constructor
    · simp [InspectorEthFrame.init_first, InspectorContext.frame_start, hcreate]
    · simp [InspectorEthFrame.init, InspectorContext.frame_start, hcreate]
  · intro e ist ctx e2 o heof
    constructor
    · simp [InspectorEthFrame.init_first, InspectorContext.frame_start, heof]
    · simp [InspectorEthFrame.init, InspectorContext.frame_start, heof]

/-- C10: when the pre-hook does not override, `frame_start` pushes the frame
input as the pre-hook left it (the hook mutates it through a mutable
reference), and `frame_end` later pops that descriptor and hands exactly it
— not the input as originally submitted — to the matching end hook. -/
theorem frame_correlation_mutated_input {ISt CTX C K E CO KO : Type}
    (fns : InspectorFns ISt CTX Interp C K E CO KO)
    (s : InspectorContext ISt CTX C K E) :
    (∀ c ist ctx c2,
      fns.call s.inspector s.inner c = (ist, ctx, c2, none) →
      InspectorContext.frame_start fns s (.Call c) =
        ({ inspector := ist
           inner := ctx
           frame_input_stack := .Call c2 :: s.frame_input_stack },
          .Call c2, none)
      ∧ ∀ (ist2 : ISt) (ctx2 : CTX) rest (o : CO),
          InspectorContext.frame_end fns
            ⟨ist2, ctx2, .Call c2 :: rest⟩ (.Call o) =
            some ({ inspector := (fns.call_end ist2 ctx2 c2 o).1
                    inner := (fns.call_end ist2 ctx2 c2 o).2.1
                    frame_input_stack := rest },
              .Call (fns.call_end ist2 ctx2 c2 o).2.2))
    ∧ (∀ k ist ctx k2,
      fns.create s.inspector s.inner k = (ist, ctx, k2, none) →
      InspectorContext.frame_start fns s (.Create k) =
        ({ inspector := ist
           inner := ctx
           frame_input_stack := .Create k2 :: s.frame_input_stack },
          .Create k2, none)
      ∧ ∀ (ist2 : ISt) (ctx2 : CTX) rest (o : KO),
          InspectorContext.frame_end fns
            ⟨ist2, ctx2, .Create k2 :: rest⟩ (.Create o) =
            some ({ inspector := (fns.create_end ist2 ctx2 k2 o).1
                    inner := (fns.create_end ist2 ctx2 k2 o).2.1
                    frame_input_stack := rest },
              .Create (fns.create_end ist2 ctx2 k2 o).2.2))
    ∧ (∀ e ist ctx e2,
      fns.eofcreate s.inspector s.inner e = (ist, ctx, e2, none) →
      InspectorContext.frame_start fns s (.EOFCreate e) =
        ({ inspector := ist
           inner := ctx
           frame_input_stack := .EOFCreate e2 :: s.frame_input_stack },
          .EOFCreate e2, none)
      ∧ ∀ (ist2 : ISt) (ctx2 : CTX) rest (o : KO),
          InspectorContext.frame_end fns
            ⟨ist2, ctx2, .EOFCreate e2 :: rest⟩ (.EOFCreate o) =
            some ({ inspector := (fns.eofcreate_end ist2 ctx2 e2 o).1
                    inner := (fns.eofcreate_end ist2 ctx2 e2 o).2.1
                    frame_input_stack := rest },
              .EOFCreate (fns.eofcreate_end ist2 ctx2 e2 o).2.2)) := by
  refine ⟨?_, ?_, ?_⟩
  · intro c ist ctx c2 hcall
    refine ⟨?_, fun ist2 ctx2 rest o => ?_⟩
    · simp [InspectorContext.frame_start, hcall]
    · simp [InspectorContext.frame_end]
  · intro k ist ctx k2 hcreate
    refine ⟨?_, fun ist2 ctx2 rest o => ?_⟩
    · simp [InspectorContext.frame_start, hcreate]
    · simp [InspectorContext.frame_end]
  · intro e ist ctx e2 heof
    refine ⟨?_, fun ist2 ctx2 rest o => ?_⟩
    · simp [InspectorContext.frame_start, heof]
    · simp [InspectorContext.frame_end]

end RevmInspector

namespace RevmInspector

/-- C6 counterexample: a nested `init` whose engine resolves immediately to
a result does NOT invoke frame-exit, contrary to the claim: with the tracing
inspector and an always-resolve engine, the returned state still holds the
pushed entry `Call 8` on the correlation stack (depth 1, not 0), its trace
holds no `call_end` event, and the outcome is the engine's `Call 5`
unadjusted — in particular the output differs from what a frame-exit (pop
plus `call_end`, which adds 10) would have produced. -/
theorem nested_init_no_frame_exit_cx :
    InspectorEthFrame.init demoFrame demoFns demoEng demoS (.Call 7) =
      .ok ({ inspector := [Ev.call]
             inner := { logs := [], journal := [] }
             frame_input_stack := [.Call 8] }, .Result (.Call 5))
    ∧ List.count Ev.call_end [Ev.call] = 0
    ∧ ([FrameInput.Call 8] : List (FrameInput Nat Nat Nat)) ≠ []
    ∧ InspectorEthFrame.init demoFrame demoFns demoEng demoS (.Call 7) ≠
        .ok ({ inspector := [Ev.call, Ev.call_end]
               inner := { logs := [], journal := [] }
               frame_input_stack := [] }, .Result (.Call 15)) := by
  refine ⟨rfl, rfl, by decide, ?_⟩
  intro h
  rw [show InspectorEthFrame.init demoFrame demoFns demoEng demoS (.Call 7) =
      .ok ({ inspector := [Ev.call]
             inner := { logs := [], journal := [] }
             frame_input_stack := [.Call 8] }, .Result (.Call 5)) from rfl] at h
  simp at h

/-- C6 (amended): when the pre-hook does not override, `frame_start` pushes
the frame input onto the correlation stack and the engine is consulted. For
the first frame (`init_first`), an immediate engine result is passed through
frame-exit (pop plus end hook) before being returned, and a spawned frame
gets `initialize_interp` exactly once on its interpreter. For a nested frame
(`init`), a spawned frame likewise gets `initialize_interp` exactly once,
but an immediate engine result is returned as-is: frame-exit is NOT invoked
there and the pushed entry stays on the stack (it is popped later, by
`return_result`). -/
theorem frame_init_engine_paths {ISt CTX C K E CO KO ρ Err : Type}
    (fns : InspectorFns ISt CTX Interp C K E CO KO)
    (eng : EthFrameEngine CTX C K E CO KO ρ Err)
    (self : InspectorEthFrame ρ)
    (s s1 : InspectorContext ISt CTX C K E)
    (fi fi1 : FrameInput C K E)
    (hstart : InspectorContext.frame_start fns s fi =
      (s1, fi1, (none : Option (FrameResult CO KO)))) :
    s1.frame_input_stack = fi1 :: s.frame_input_stack
    ∧ (∀ inner res, eng.init_first s1.inner fi1 = .ok (inner, .Result res) →
        InspectorEthFrame.init_first (ρ := ρ) fns eng s fi =
          match InspectorContext.frame_end fns { s1 with inner := inner } res with
          | none => none
          | some p => some (.ok (p.1, .Result p.2)))
    ∧ (∀ inner f, eng.init_first s1.inner fi1 = .ok (inner, .Frame f) →
        InspectorEthFrame.init_first fns eng s fi =
          some (.ok ((InspectorContext.initialize_interp fns
              { s1 with inner := inner } f.interpreter).1,
            .Frame { eth_frame := { f with interpreter :=
              (InspectorContext.initialize_interp fns
                { s1 with inner := inner } f.interpreter).2 } })))
    ∧ (∀ inner res, eng.init self.eth_frame s1.inner fi1 = .ok (inner, .Result res) →
        InspectorEthFrame.init self fns eng s fi =
          .ok ({ s1 with inner := inner }, .Result res))
    ∧ (∀ inner f, eng.init self.eth_frame s1.inner fi1 = .ok (inner, .Frame f) →
        InspectorEthFrame.init self fns eng s fi =
          .ok ((InspectorContext.initialize_interp fns
              { s1 with inner := inner } f.interpreter).1,
            .Frame { eth_frame := { f with interpreter :=
              (InspectorContext.initialize_interp fns
                { s1 with inner := inner } f.interpreter).2 } })) := by
  refine ⟨?_, ?_, ?_, ?_, ?_⟩
  · cases fi with
    | Call c =>
      simp only [InspectorContext.frame_start] at hstart
      cases ho : (fns.call s.inspector s.inner c).2.2.2 with
      | some out => rw [ho] at hstart; simp at hstart
      | none =>
        rw [ho] at hstart
        injection hstart with h1 h23
        injection h23 with h2 h3
        rw [← h1, ← h2]
    | Create k =>
      simp only [InspectorContext.frame_start] at hstart
      cases ho : (fns.create s.inspector s.inner k).2.2.2 with
      | some out => rw [ho] at hstart; simp at hstart
      | none =>
        rw [ho] at hstart
        injection hstart with h1 h23
        injection h23 with h2 h3
        rw [← h1, ← h2]
    | EOFCreate e =>
      simp only [InspectorContext.frame_start] at hstart
      cases ho : (fns.eofcreate s.inspector s.inner e).2.2.2 with
      | some out => rw [ho] at hstart; simp at hstart
      | none =>
        rw [ho] at hstart
        injection hstart with h1 h23
        injection h23 with h2 h3
        rw [← h1, ← h2]
  · intro inner res heng
    simp only [InspectorEthFrame.init_first, hstart, heng]
    cases InspectorContext.frame_end fns { s1 with inner := inner } res with
    | none => rfl
    | some p =>
      cases p
      rfl
  · intro inner f heng
    simp only [InspectorEthFrame.init_first, hstart, heng]
  · intro inner res heng
    simp only [InspectorEthFrame.init, hstart, heng]
  · intro inner f heng
    simp only [InspectorEthFrame.init, hstart, heng]

end RevmInspector

namespace RevmInspector

/-- C8: the instrumented dispatch table has exactly 256 entries; every index
other than LOG0–LOG4 and SELFDESTRUCT holds the base table's handler for the
same opcode wrapped as an `InspectorInstruction` (whose `exec` is the generic
step/step_end wrapper); the five log indices hold the log wrapper around the
base log handlers and the self-destruct index holds the self-destruct
wrapper; and cloning the provider reuses the identical table — `clone` is
the identity, it never rebuilds. -/
theorem dispatch_table_shape {HOST : Type} (ictx : InspectorCtxFns HOST)
    (jext : HOST → JournaledState) (main_table : Nat → Instr HOST)
    (log_n : Nat → Instr HOST) (sd : Instr HOST) :
    (InspectorInstructionProvider.new ictx jext main_table log_n
        sd).instruction_table.length = 256
    ∧ (∀ i, i < 256 → i ≠ LOG0 → i ≠ LOG1 → i ≠ LOG2 → i ≠ LOG3 → i ≠ LOG4 →
        i ≠ SELFDESTRUCT →
        (InspectorInstructionProvider.new ictx jext main_table log_n
            sd).instruction_table[i]? =
          some (InspectorInstruction.from_base (main_table i)))
    ∧ ((InspectorInstructionProvider.new ictx jext main_table log_n
          sd).instruction_table[LOG0]? =
        some { instruction := fun interp context =>
          inspector_log ictx jext (log_n 0) interp context })
    ∧ ((InspectorInstructionProvider.new ictx jext main_table log_n
          sd).instruction_table[LOG1]? =
        some { instruction := fun interp context =>
          inspector_log ictx jext (log_n 1) interp context })
    ∧ ((InspectorInstructionProvider.new ictx jext main_table log_n
          sd).instruction_table[LOG2]? =
        some { instruction := fun interp context =>
          inspector_log ictx jext (log_n 2) interp context })
    ∧ ((InspectorInstructionProvider.new ictx jext main_table log_n
          sd).instruction_table[LOG3]? =
        some { instruction := fun interp context =>
          inspector_log ictx jext (log_n 3) interp context })
    ∧ ((InspectorInstructionProvider.new ictx jext main_table log_n
          sd).instruction_table[LOG4]? =
        some { instruction := fun interp context =>
          inspector_log ictx jext (log_n 4) interp context })
    ∧ ((InspectorInstructionProvider.new ictx jext main_table log_n
          sd).instruction_table[SELFDESTRUCT]? =
        some { instruction := selfdestruct_entry ictx jext sd })
    ∧ (InspectorInstructionProvider.new ictx jext main_table log_n sd).clone =
        InspectorInstructionProvider.new ictx jext main_table log_n sd := by
  refine ⟨?_, ?_, ?_, ?_, ?_, ?_, ?_, ?_, rfl⟩
  · simp [InspectorInstructionProvider.new, List.length_set, List.length_map,
      List.length_range]
  · intro i hi h0 h1 h2 h3 h4 h5
    simp only [InspectorInstructionProvider.new]
    rw [List.getElem?_set_ne (Ne.symm h5), List.getElem?_set_ne (Ne.symm h4),
        List.getElem?_set_ne (Ne.symm h3), List.getElem?_set_ne (Ne.symm h2),
        List.getElem?_set_ne (Ne.symm h1), List.getElem?_set_ne (Ne.symm h0),
        List.getElem?_map]
    simp [List.getElem?_range, hi]
  · simp only [InspectorInstructionProvider.new]
    rw [List.getElem?_set_ne (by decide : SELFDESTRUCT ≠ LOG0),
        List.getElem?_set_ne (by decide : LOG4 ≠ LOG0),
        List.getElem?_set_ne (by decide : LOG3 ≠ LOG0),
        List.getElem?_set_ne (by decide : LOG2 ≠ LOG0),
        List.getElem?_set_ne (by decide : LOG1 ≠ LOG0),
        List.getElem?_set_self]
    simp [List.length_map, List.length_range]
    decide
  · simp only [InspectorInstructionProvider.new]
    rw [List.getElem?_set_ne (by decide : SELFDESTRUCT ≠ LOG1),
        List.getElem?_set_ne (by decide : LOG4 ≠ LOG1),
        List.getElem?_set_ne (by decide : LOG3 ≠ LOG1),
        List.getElem?_set_ne (by decide : LOG2 ≠ LOG1),
        List.getElem?_set_self]
    simp [List.length_set, List.length_map, List.length_range]
    decide
  · simp only [InspectorInstructionProvider.new]
    rw [List.getElem?_set_ne (by decide : SELFDESTRUCT ≠ LOG2),
        List.getElem?_set_ne (by decide : LOG4 ≠ LOG2),
        List.getElem?_set_ne (by decide : LOG3 ≠ LOG2),
        List.getElem?_set_self]
    simp [List.length_set, List.length_map, List.length_range]
    decide
  · simp only [InspectorInstructionProvider.new]
    rw [List.getElem?_set_ne (by decide : SELFDESTRUCT ≠ LOG3),
        List.getElem?_set_ne (by decide : LOG4 ≠ LOG3),
        List.getElem?_set_self]
    simp [List.length_set, List.length_map, List.length_range]
    decide
  · simp only [InspectorInstructionProvider.new]
    rw [List.getElem?_set_ne (by decide : SELFDESTRUCT ≠ LOG4),
        List.getElem?_set_self]
    simp [List.length_set, List.length_map, List.length_range]
    decide
  · simp only [InspectorInstructionProvider.new]
    rw [List.getElem?_set_self]
    simp [List.length_set, List.length_map, List.length_range]
    decide

end RevmInspector

namespace RevmInspector

/-- Witness for C1: a concrete `exec` with the tracing inspector on a `Continue`
step at pc 5, exercising the full step → base → step_end path. -/
theorem exec_step_protocol_witness :
    InspectorInstruction.exec (InspectorContext.ctxFns demoFns)
      (InspectorInstruction.from_base demoNop)
      { pc := 5, result := .Continue } demoS =
      some ({ pc := 5, result := .Continue },
        { inspector := [Ev.step, Ev.step_end]
          inner := { logs := [], journal := [] }
          frame_input_stack := [] }) :=
  ((exec_step_protocol (InspectorContext.ctxFns demoFns)
      (InspectorInstruction.from_base demoNop)
      { pc := 5, result := .Continue } demoS
      { demoS with inspector := [Ev.step] } { pc := 4, result := .Continue }
      rfl).2 rfl).trans rfl

/-- Witness for C2: a concrete overriding pre-hook (`demoFnsOv`, returning
outcome 42): `init_first` returns `Call 42` with the stack unchanged. -/
theorem frame_override_witness :
    InspectorEthFrame.init_first (ρ := Nat) demoFnsOv demoEng demoS (.Call 7) =
      some (.ok ({ inspector := [Ev.call]
                   inner := { logs := [], journal := [] }
                   frame_input_stack := [] }, .Result (.Call 42))) :=
  (((frame_override demoFnsOv demoEng demoFrame demoS).1 7 [Ev.call]
    { logs := [], journal := [] } 8 42 rfl).1).trans rfl

/-- Witness for C3: a concrete log instruction (base handler `demoLogBase`
appends log `(1, 2)` and stays at `Continue`): the hook fires on that log. -/
theorem inspector_log_protocol_witness :
    inspector_log (InspectorContext.ctxFns demoFns)
      (InspectorContext.journal_ext id) demoLogBase
      { pc := 0, result := .Continue } demoS =
      some ({ pc := 0, result := .Continue },
        { inspector := [Ev.lg]
          inner := { logs := [{ address := 1, data := 2 }], journal := [] }
          frame_input_stack := [] }) :=
  ((inspector_log_protocol (InspectorContext.ctxFns demoFns)
      (InspectorContext.journal_ext id) demoLogBase
      { pc := 0, result := .Continue } demoS { pc := 0, result := .Continue }
      { demoS with inner := { logs := [{ address := 1, data := 2 }], journal := [] } }
      rfl).1 { address := 1, data := 2 } rfl (by decide)).trans rfl

/-- Witness for C4: a concrete self-destruct (base handler `demoSdBase`
records `AccountDestroyed 3 4 9` and sets `SelfDestruct`): the hook fires
with the triple `(3, 4, 9)`. -/
theorem selfdestruct_hook_protocol_witness :
    selfdestruct_entry (InspectorContext.ctxFns demoFns)
      (InspectorContext.journal_ext id) demoSdBase
      { pc := 0, result := .Continue } demoS =
      some ({ pc := 0, result := .SelfDestruct },
        { inspector := [Ev.sd]
          inner := { logs := [], journal := [[.AccountDestroyed 3 4 true 9]] }
          frame_input_stack := [] }) :=
  ((selfdestruct_hook_protocol (InspectorContext.ctxFns demoFns)
      (InspectorContext.journal_ext id) demoSdBase
      { pc := 0, result := .Continue } demoS { pc := 0, result := .SelfDestruct }
      { demoS with inner := { logs := [], journal := [[.AccountDestroyed 3 4 true 9]] } }
      rfl).1 [.AccountDestroyed 3 4 true 9] 3 4 true 9 rfl (by decide)
      (by decide)).trans rfl

/-- Witness for C6 (amended): with the tracing inspector, no override, and
the always-resolve engine, `init_first` passes the engine's immediate result
through frame-exit: the entry is popped and `call_end` adjusts `Call 5` to
`Call 15`. -/
theorem frame_init_engine_paths_witness :
    InspectorEthFrame.init_first (ρ := Nat) demoFns demoEng demoS (.Call 7) =
      some (.ok ({ inspector := [Ev.call, Ev.call_end]
                   inner := { logs := [], journal := [] }
                   frame_input_stack := [] }, .Result (.Call 15))) :=
  ((frame_init_engine_paths demoFns demoEng demoFrame demoS
      { inspector := [Ev.call]
        inner := { logs := [], journal := [] }
        frame_input_stack := [.Call 8] }
      (.Call 7) (.Call 8) rfl).2.1
    { logs := [], journal := [] } (.Call 5) rfl).trans rfl

/-- Witness for C7: popping a `Call 9` entry against a `Call 4` outcome runs
`call_end` (which adds 10) and leaves the stack empty. -/
theorem frame_end_contract_witness :
    InspectorContext.frame_end demoFns
      ⟨[], { logs := [], journal := [] }, [.Call 9]⟩ (.Call 4) =
      some (⟨[Ev.call_end], { logs := [], journal := [] }, []⟩, .Call 14) :=
  ((frame_end_contract demoFns
      ⟨[], { logs := [], journal := [] }, [.Call 9]⟩ (.Call 4)).2.1
    9 [] 4 rfl rfl).trans rfl

/-- Witness for C8: entry 0 of a concretely built table is the wrapped base
handler for opcode 0. -/
theorem dispatch_table_shape_witness :
    (InspectorInstructionProvider.new (InspectorContext.ctxFns demoFns)
        (InspectorContext.journal_ext id) demoBaseTable (fun _ => demoLogBase)
        demoSdBase).instruction_table[0]? =
      some (InspectorInstruction.from_base (demoBaseTable 0)) :=
  (dispatch_table_shape (InspectorContext.ctxFns demoFns)
      (InspectorContext.journal_ext id) demoBaseTable (fun _ => demoLogBase)
      demoSdBase).2.1 0 (by decide) (by decide) (by decide) (by decide)
    (by decide) (by decide) (by decide)

/-- Witness for C9: with the concrete base handlers (`demoLogBase` appends a
log; `demoSdBase` writes a journal segment), neither wrapper panics. -/
theorem journal_reads_never_panic_witness :
    (inspector_log (InspectorContext.ctxFns demoFns)
        (InspectorContext.journal_ext id) demoLogBase
        { pc := 0, result := .Continue } demoS).isSome = true
    ∧ (selfdestruct_entry (InspectorContext.ctxFns demoFns)
        (InspectorContext.journal_ext id) demoSdBase
        { pc := 0, result := .Continue } demoS).isSome = true :=
  journal_reads_never_panic (InspectorContext.ctxFns demoFns)
    (InspectorContext.journal_ext id) demoLogBase demoSdBase
    { pc := 0, result := .Continue } demoS
    { pc := 0, result := .Continue }
    { demoS with inner := { logs := [{ address := 1, data := 2 }], journal := [] } }
    { pc := 0, result := .SelfDestruct }
    { demoS with inner := { logs := [], journal := [[.AccountDestroyed 3 4 true 9]] } }
    rfl rfl (fun _ => by decide) (fun _ => by decide)

/-- Witness for C10: the pre-hook mutates `Call 7` to `Call 8`; `frame_start`
pushes `Call 8`, and `frame_end` later hands exactly `Call 8` to `call_end`. -/
theorem frame_correlation_mutated_input_witness :
    InspectorContext.frame_start demoFns demoS (.Call 7) =
      ({ inspector := [Ev.call]
         inner := { logs := [], journal := [] }
         frame_input_stack := [.Call 8] }, .Call 8, none)
    ∧ InspectorContext.frame_end demoFns
        ⟨[], { logs := [], journal := [] }, [.Call 8]⟩ (.Call 4) =
        some (⟨[Ev.call_end], { logs := [], journal := [] }, []⟩, .Call 14) :=
  ⟨(((frame_correlation_mutated_input demoFns demoS).1 7 [Ev.call]
      { logs := [], journal := [] } 8 rfl).1).trans rfl,
   ((((frame_correlation_mutated_input demoFns demoS).1 7 [Ev.call]
      { logs := [], journal := [] } 8 rfl).2) [] { logs := [], journal := [] }
      [] 4).trans rfl⟩

end RevmInspector
